import Mathlib

/-!
Verification of the KV-cache management core (batch cache marshalling and
prefix caching) of a transformer inference engine, shallowly embedded from
`src/mistralrs-core/src/pipeline/cache_manager.rs` and
`src/mistralrs-core/src/prefix_cacher.rs`.

Token ids (`u32`) are modelled as `Nat` (they are only compared for
equality).  Fallible or panicking code paths return `Option`, with `none`
standing for a panic (a failed `unwrap`/`expect`/index).
-/

namespace Mistral

/-- Device tag carried by every tensor handle. -/
inductive Device where
  | cpu : Device
  | gpu : Nat → Device
deriving DecidableEq, Repr

/-- Modelled from the spec: the opaque reference-counted `Tensor` of the
external tensor library, reduced to the contract this core consumes: an
axis-0 sequence of rows (row payloads abstracted to `Nat`) together with a
device tag.  Shallow clone is identity at the value level. -/
structure Tensor where
  rows : List Nat
  dev : Device
deriving DecidableEq, Repr

instance : Inhabited Tensor := ⟨⟨[], Device.cpu⟩⟩

/-- Modelled from the spec: concatenation of tensors along axis 0
(`Tensor::cat(&ts, 0)`); the result lives on the device of the first
operand. -/
def Tensor.cat (ts : List Tensor) : Tensor :=
  { rows := (ts.map Tensor.rows).flatten
    dev := ((ts.head?).map Tensor.dev).getD Device.cpu }

/-- Modelled from the spec: even-chunk split along axis 0
(`Tensor::chunk(n, 0)`): the split must produce exactly `n` equally sized
chunks, anything else is a batch-shape mismatch (`none`). -/
def Tensor.chunk (t : Tensor) (n : Nat) : Option (List Tensor) :=
  if n = 0 then none
  else if t.rows.length % n = 0 then
    some ((List.range n).map fun i =>
      { rows := (t.rows.drop (i * (t.rows.length / n))).take (t.rows.length / n)
        dev := t.dev })
  else none

/-- Modelled from the spec: `Tensor::to_device` returns a new handle whose
payload is unchanged and whose device tag is the target device. -/
def Tensor.toDevice (t : Tensor) (d : Device) : Tensor :=
  { t with dev := d }

/-- `pub type LayerCaches = Vec<Option<(Tensor, Tensor)>>` -/
abbrev LayerCaches : Type := List (Option (Tensor × Tensor))

/-- The externally owned `Sequence` interface consumed by the cache core:
its token vector, its normal / xlora / draft `LayerCaches` slots, its
scalings side-channel, and the xlora flag. -/
structure Sequence where
  toks : List Nat
  cache : LayerCaches
  xlora_cache : LayerCaches
  draft_cache : LayerCaches
  scaling_cache : Option Tensor
  is_xlora : Bool
deriving DecidableEq

/-- `enum SeqCache { Normal, XLora, Draft }` — the three-way per-sequence
slot selector of `cache_manager.rs`. -/
inductive SeqCache where
  | Normal : SeqCache
  | XLora : SeqCache
  | Draft : SeqCache
deriving DecidableEq, Repr

/-- Read the selected slot of a sequence (`seq.cache()` /
`seq.xlora_cache()` / `seq.draft_cache()`). -/
def seqGet (s : Sequence) : SeqCache → LayerCaches
  | SeqCache.Normal => s.cache
  | SeqCache.XLora => s.xlora_cache
  | SeqCache.Draft => s.draft_cache

/-- Write the selected slot of a sequence. -/
def seqSet (s : Sequence) (sel : SeqCache) (c : LayerCaches) : Sequence :=
  match sel with
  | SeqCache.Normal => { s with cache := c }
  | SeqCache.XLora => { s with xlora_cache := c }
  | SeqCache.Draft => { s with draft_cache := c }

/-! ## `cache_manager.rs`: the batch cache and its gather / scatter / reset -/

/-- The `Cache` struct of `cache_manager.rs`: the model's forward-pass
state.  `xlora_cache` and `scalings_cache` are present iff the model is
xlora.  The mutexes are collapsed (operations are externally
serialized). -/
structure Cache where
  cache : LayerCaches
  xlora_cache : Option LayerCaches
  draft_cache : LayerCaches
  scalings_cache : Option (Option Tensor)
deriving DecidableEq

/-- The pipeline metadata fields consumed by `DefaultCacheManager`. -/
structure GeneralMetadata where
  num_hidden_layers : Nat
  is_xlora : Bool
  has_no_kv_cache : Bool
deriving DecidableEq, Repr

/-- The inner loop of the free function `clone_in_cache`: read layer
`layer` of each sequence's selected slot in order, panicking (`none`) when
the slot is out of range or absent (`expect("Not handling completions in
clone_in_cache.")`). -/
def collectPairs (src : SeqCache) (layer : Nat) :
    List Sequence → Option (List (Tensor × Tensor))
  | [] => some []
  | s :: rest => do
    let slot ← (seqGet s src)[layer]?
    let kv ← slot
    let tail ← collectPairs src layer rest
    pure (kv :: tail)

/-- `if k_vec.len() > 1 { Tensor::cat(&k_vec, 0) } else { k_vec[0].clone() }`.
The second component is a ghost counter recording whether `Tensor::cat`
was invoked (`1`) or the single-sequence fast path was taken (`0`);
`none` models the index panic on an empty vector. -/
def catOrSingle (ts : List Tensor) : Option (Tensor × Nat) :=
  if ts.length > 1 then some (Tensor.cat ts, 1)
  else ts.head?.map fun t => (t, 0)

/-- The per-layer loop of the free function `clone_in_cache`, walking the
given list of layer indices and building the fresh batched cache.  The
`Nat` component counts `Tensor::cat` invocations (ghost). -/
def gatherLayers (seqs : List Sequence) (src : SeqCache) :
    List Nat → Option (LayerCaches × Nat)
  | [] => some (([] : List (Option (Tensor × Tensor))), 0)
  | layer :: rest => do
    let pairs ← collectPairs src layer seqs
    let (k, ck) ← catOrSingle (pairs.map Prod.fst)
    let (v, cv) ← catOrSingle (pairs.map Prod.snd)
    let (tail, cr) ← gatherLayers seqs src rest
    pure (((some (k, v) :: tail) : List (Option (Tensor × Tensor))), ck + cv + cr)

/-- The free function `clone_in_cache` of `cache_manager.rs` (lines
87-124): gather the selected slot of every sequence into one batched
`LayerCaches`, layer by layer, concatenating along axis 0.  Returns the
new container together with the ghost count of `Tensor::cat` calls. -/
def clone_in_cache (num_hidden_layers : Nat) (seqs : List Sequence)
    (src : SeqCache) : Option (LayerCaches × Nat) :=
  gatherLayers seqs src (List.range num_hidden_layers)

/-- The `for (seq_i, seq) in seqs.iter_mut().enumerate()` loop of the free
function `clone_out_cache`: write chunk `i` of the split layer into
sequence `i`'s selected slot.  `i` is the running enumeration index into
the chunk vectors (`k_caches.get(seq_i).unwrap()`). -/
def writeLayer (tgt : SeqCache) (layer : Nat) (ks vs : List Tensor) :
    Nat → List Sequence → Option (List Sequence)
  | _, [] => some []
  | i, s :: rest => do
    let ki ← ks[i]?
    let vi ← vs[i]?
    let tail ← writeLayer tgt layer ks vs (i + 1) rest
    pure (seqSet s tgt ((seqGet s tgt).set layer (some (ki, vi))) :: tail)

/-- The per-layer loop of the free function `clone_out_cache`: read the
batched layer (panic when absent), split `K` and `V` into `seqs.len()`
even chunks along axis 0 (`BatchShapeMismatch` when uneven), and write the
chunks back into the sequences' selected slots. -/
def scatterLayers (cache : LayerCaches) (tgt : SeqCache) :
    List Nat → List Sequence → Option (List Sequence)
  | [], seqs => some seqs
  | layer :: rest, seqs => do
    let slot ← cache[layer]?
    let kv ← slot
    let ks ← kv.1.chunk seqs.length
    let vs ← kv.2.chunk seqs.length
    let seqs1 ← writeLayer tgt layer ks vs 0 seqs
    scatterLayers cache tgt rest seqs1

/-- The free function `clone_out_cache` of `cache_manager.rs` (lines
126-154): scatter the batched container back into the sequences' selected
slots, layer by layer. -/
def clone_out_cache (num_hidden_layers : Nat) (cache : LayerCaches)
    (seqs : List Sequence) (tgt : SeqCache) : Option (List Sequence) :=
  scatterLayers cache tgt (List.range num_hidden_layers) seqs

namespace DefaultCacheManager

/-- `DefaultCacheManager::clone_in_cache` (lines 157-192): with
`modify_draft_cache` the *normal* container is filled from the draft
slots; otherwise the normal container is filled from the normal slots,
then (xlora and kv-cache models) the xlora container from the xlora
slots, then (xlora models) the batch scalings is set from
`seqs[0].scaling_cache()`.  Returns the updated `Cache` and the sequence
list (threaded through for frame reasoning); `none` models a panic. -/
def clone_in_cache (md : GeneralMetadata) (c : Cache) (seqs : List Sequence)
    (modify_draft_cache : Bool) : Option (Cache × List Sequence) :=
  if modify_draft_cache then
    match Mistral.clone_in_cache md.num_hidden_layers seqs SeqCache.Draft with
    | none => none
    | some (nc, _) => some ({ c with cache := nc }, seqs)
  else
    match Mistral.clone_in_cache md.num_hidden_layers seqs SeqCache.Normal with
    | none => none
    | some (nc, _) =>
      let c1 : Cache := { c with cache := nc }
      let step2 : Option Cache :=
        if md.is_xlora && !md.has_no_kv_cache then
          match c1.xlora_cache with
          | none => none
          | some _ =>
            match Mistral.clone_in_cache md.num_hidden_layers seqs SeqCache.XLora with
            | none => none
            | some (nxc, _) => some { c1 with xlora_cache := some nxc }
        else some c1
      match step2 with
      | none => none
      | some c2 =>
        if md.is_xlora then
          match c2.scalings_cache, seqs with
          | some _, s0 :: _ =>
            some ({ c2 with scalings_cache := some s0.scaling_cache }, seqs)
          | _, _ => none
        else some (c2, seqs)

/-- `DefaultCacheManager::clone_out_cache` (lines 194-228): the inverse
routing of `clone_in_cache`; under xlora the batch scalings is copied
back into `seqs[0].scaling_cache()`. -/
def clone_out_cache (md : GeneralMetadata) (c : Cache) (seqs : List Sequence)
    (modify_draft_cache : Bool) : Option (List Sequence) :=
  if modify_draft_cache then
    Mistral.clone_out_cache md.num_hidden_layers c.cache seqs SeqCache.Draft
  else
    match Mistral.clone_out_cache md.num_hidden_layers c.cache seqs SeqCache.Normal with
    | none => none
    | some seqs1 =>
      let step2 : Option (List Sequence) :=
        if md.is_xlora && !md.has_no_kv_cache then
          match c.xlora_cache with
          | none => none
          | some xc => Mistral.clone_out_cache md.num_hidden_layers xc seqs1 SeqCache.XLora
        else some seqs1
      match step2 with
      | none => none
      | some seqs2 =>
        if md.is_xlora then
          match c.scalings_cache, seqs2 with
          | some sc, s0 :: rest => some ({ s0 with scaling_cache := sc } :: rest)
          | _, _ => none
        else some seqs2

/-- `DefaultCacheManager::set_none_cache` (lines 230-242): replace the
normal container with a fresh all-`None` vector of length
`num_hidden_layers`; also the draft container when `modify_draft_cache`;
also the xlora container when it is present.  Scalings is untouched. -/
def set_none_cache (md : GeneralMetadata) (c : Cache)
    (modify_draft_cache : Bool) : Cache :=
  let new_cache : LayerCaches := (List.range md.num_hidden_layers).map fun _ => none
  let c1 : Cache := { c with cache := new_cache }
  let c2 : Cache :=
    if modify_draft_cache then { c1 with draft_cache := new_cache } else c1
  if c2.xlora_cache.isSome then { c2 with xlora_cache := some new_cache } else c2

end DefaultCacheManager

/-! ## `prefix_cacher.rs`: the two-tier prefix cache -/

/-- `indexmap::IndexMap`, modelled as an association list in insertion
order (oldest first). -/
abbrev IndexMap (α β : Type) : Type := List (α × β)

namespace IndexMap

/-- `IndexMap::get`: value of the entry whose key equals `k`. -/
def get {α β : Type} [DecidableEq α] (m : IndexMap α β) (k : α) : Option β :=
  match m with
  | [] => none
  | (k', v) :: rest => if k' = k then some v else get rest k

/-- `IndexMap::insert`: replace the value in place when the key is
present (the entry keeps its position), else append at the back. -/
def insert {α β : Type} [DecidableEq α] (m : IndexMap α β) (k : α) (v : β) :
    IndexMap α β :=
  match m with
  | [] => [(k, v)]
  | (k', v') :: rest =>
    if k' = k then (k, v) :: rest else (k', v') :: insert rest k v

/-- The key list of a map, in insertion order. -/
def keys {α β : Type} (m : IndexMap α β) : List α := m.map Prod.fst

end IndexMap

/-- Rust release-mode `usize` subtraction: wraps modulo `2 ^ 64` on
underflow. -/
def usizeSub (a b : Nat) : Nat := (a + 2 ^ 64 - b % 2 ^ 64) % 2 ^ 64

/-- The `PrefixCacheManager` struct of `prefix_cacher.rs`: device-tier and
cpu-tier ordered maps from token vectors to `LayerCaches`, optional xlora
twins, the target device, and the on-device entry target. -/
structure PrefixCacheManager where
  caches : IndexMap (List Nat) LayerCaches
  cpu_caches : IndexMap (List Nat) LayerCaches
  xlora_caches : Option (IndexMap (List Nat) LayerCaches)
  xlora_cpu_caches : Option (IndexMap (List Nat) LayerCaches)
  device : Device
  n_on_device : Nat
deriving DecidableEq

/-- `enum MatchingCache { Verbatim {..}, Subset {..} }`. -/
inductive MatchingCache where
  | Verbatim (normal : LayerCaches) (xlora : Option LayerCaches) : MatchingCache
  | Subset (normal : LayerCaches) (xlora : Option LayerCaches)
      (toks : List Nat) : MatchingCache
deriving DecidableEq

/-- Transfer every present layer of a `LayerCaches` to the given device,
keeping absent layers absent (the loop body shared by `evict_to_cpu` and
the two promotion helpers). -/
def cacheTo (d : Device) (cache : LayerCaches) : LayerCaches :=
  cache.map fun layer => layer.map fun kv => (kv.1.toDevice d, kv.2.toDevice d)

namespace PrefixCacheManager

/-- `PrefixCacheManager::new`. -/
def new (device : Device) (n_on_device : Nat) (is_xlora : Bool) :
    PrefixCacheManager :=
  { caches := []
    cpu_caches := []
    xlora_caches := if is_xlora then some [] else none
    xlora_cpu_caches := if is_xlora then some [] else none
    device := device
    n_on_device := n_on_device }

/-- `PrefixCacheManager::add_sequence` (lines 50-57), transcribed exactly:
the normal cache is inserted into `caches` under the token key, and when
the sequence is xlora its xlora cache is then inserted into `caches` —
not `xlora_caches` — under the same key, overwriting the first insert. -/
def add_sequence (m : PrefixCacheManager) (seq : Sequence) :
    PrefixCacheManager :=
  let m1 : PrefixCacheManager :=
    { m with caches := m.caches.insert seq.toks seq.cache }
  if seq.is_xlora then
    { m1 with caches := m1.caches.insert seq.toks seq.xlora_cache }
  else m1

/-- `PrefixCacheManager::evict_to_cpu` (lines 61-81): drain the first
`len().saturating_sub(n_on_device)` device entries (the oldest), insert
each into `cpu_caches` with all present layers transferred to the cpu,
and return `caches.len() - n_on_device` computed *after* the drain with
Rust `usize` subtraction. -/
def evict_to_cpu (m : PrefixCacheManager) : PrefixCacheManager × Nat :=
  let excess := m.caches.length - m.n_on_device
  let drained := m.caches.take excess
  let cpu1 := drained.foldl
    (fun acc e => IndexMap.insert acc e.1 (cacheTo Device.cpu e.2))
    m.cpu_caches
  let m1 : PrefixCacheManager :=
    { m with caches := m.caches.drop excess, cpu_caches := cpu1 }
  (m1, usizeSub m1.caches.length m1.n_on_device)

/-- `PrefixCacheManager::promote_into_device_cache` (lines 83-102):
transfer all present layers to the manager's device and insert the result
into the device-tier `caches` under `toks` (without removing any
cpu-tier entry). -/
def promote_into_device_cache (m : PrefixCacheManager) (toks : List Nat)
    (cache : LayerCaches) : PrefixCacheManager × LayerCaches :=
  let new_cache := cacheTo m.device cache
  ({ m with caches := m.caches.insert toks new_cache }, new_cache)

/-- `PrefixCacheManager::promote_into_device_xlora_cache` (lines 104-126);
`none` models the `unwrap` panic when there is no xlora map. -/
def promote_into_device_xlora_cache (m : PrefixCacheManager)
    (toks : List Nat) (cache : LayerCaches) :
    Option (PrefixCacheManager × LayerCaches) :=
  match m.xlora_caches with
  | none => none
  | some xc =>
    let new_cache := cacheTo m.device cache
    some ({ m with xlora_caches := some (xc.insert toks new_cache) }, new_cache)

/-- The `for (ids, cache) in &self.caches` loop of
`search_for_matching_cache` (lines 168-197): scan the device tier in
insertion order; a key that is a leading slice of the query yields
`Subset` with the query remainder, a key the query is a leading slice of
yields `Verbatim`.  The outer `none` models the xlora `unwrap` panics;
`some none` means the loop fell through without a match. -/
def searchDeviceLoop (m : PrefixCacheManager) (toks : List Nat) :
    List (List Nat × LayerCaches) → Option (Option MatchingCache)
  | [] => some none
  | (ids, cache) :: rest =>
    if ids.length ≤ toks.length ∧ toks.take ids.length = ids then
      match m.xlora_caches with
      | some xc =>
        match xc.get ids with
        | some xl =>
          some (some (MatchingCache.Subset cache (some xl) (toks.drop ids.length)))
        | none => none
      | none =>
        some (some (MatchingCache.Subset cache none (toks.drop ids.length)))
    else if toks.length ≤ ids.length ∧ ids.take toks.length = toks then
      match m.xlora_caches with
      | some xc =>
        match xc.get ids with
        | some xl => some (some (MatchingCache.Verbatim cache (some xl)))
        | none => none
      | none => some (some (MatchingCache.Verbatim cache none))
    else searchDeviceLoop m toks rest

/-- The `for (ids, cache) in self.cpu_caches.clone()` loop of
`search_for_matching_cache` (lines 198-249): the same two conditions over
the cpu tier; on a match the normal cache is promoted to the device keyed
by the *query* tokens, and under xlora the parallel promotion reads
`xlora_cpu_caches.get(toks)` (the query, not the stored key) and unwraps.
`none` models those panics. -/
def searchCpuLoop (m : PrefixCacheManager) (toks : List Nat) :
    List (List Nat × LayerCaches) →
    Option (PrefixCacheManager × Option MatchingCache)
  | [] => some (m, none)
  | (ids, cache) :: rest =>
    if ids.length ≤ toks.length ∧ toks.take ids.length = ids then
      let p := promote_into_device_cache m toks cache
      if p.1.xlora_cpu_caches.isSome then
        match p.1.xlora_cpu_caches.bind (fun xc => xc.get toks) with
        | some xl =>
          match promote_into_device_xlora_cache p.1 toks xl with
          | some (m2, xlp) =>
            some (m2, some (MatchingCache.Subset p.2 (some xlp) (toks.drop ids.length)))
          | none => none
        | none => none
      else
        some (p.1, some (MatchingCache.Subset p.2 none (toks.drop ids.length)))
    else if toks.length ≤ ids.length ∧ ids.take toks.length = toks then
      let p := promote_into_device_cache m toks cache
      if p.1.xlora_cpu_caches.isSome then
        match p.1.xlora_cpu_caches.bind (fun xc => xc.get toks) with
        | some xl =>
          match promote_into_device_xlora_cache p.1 toks xl with
          | some (m2, xlp) =>
            some (m2, some (MatchingCache.Verbatim p.2 (some xlp)))
          | none => none
        | none => none
      else
        some (p.1, some (MatchingCache.Verbatim p.2 none))
    else searchCpuLoop m toks rest

/-- `PrefixCacheManager::search_for_matching_cache` (lines 129-252):
exact device hit, then exact cpu hit (promoting, and under xlora reading
the *device* xlora map for the parallel entry), then the device-tier
scan, then the cpu-tier scan, else no match.  The result pairs the
updated manager with the optional match; `none` models a panic. -/
def search_for_matching_cache (m : PrefixCacheManager) (toks : List Nat) :
    Option (PrefixCacheManager × Option MatchingCache) :=
  match m.caches.get toks with
  | some cache =>
    match m.xlora_caches with
    | some xc =>
      match xc.get toks with
      | some xl => some (m, some (MatchingCache.Verbatim cache (some xl)))
      | none => none
    | none => some (m, some (MatchingCache.Verbatim cache none))
  | none =>
    match m.cpu_caches.get toks with
    | some cache =>
      let p := promote_into_device_cache m toks cache
      if p.1.xlora_caches.isSome then
        match p.1.xlora_caches.bind (fun xc => xc.get toks) with
        | some xl =>
          match promote_into_device_xlora_cache p.1 toks xl with
          | some (m2, xlp) =>
            some (m2, some (MatchingCache.Verbatim p.2 (some xlp)))
          | none => none
        | none => none
      else some (p.1, some (MatchingCache.Verbatim p.2 none))
    | none =>
      match searchDeviceLoop m toks m.caches with
      | none => none
      | some (some res) => some (m, some res)
      | some none => searchCpuLoop m toks m.cpu_caches

end PrefixCacheManager

/-! ## Specification-side definitions and well-formedness predicates -/

/-- Value stored at a layer slot (`None`/out-of-range collapse to the
default; only used where presence is separately established). -/
def lcKV (lc : LayerCaches) (layer : Nat) : Tensor × Tensor :=
  match lc[layer]? with
  | some (some kv) => kv
  | _ => default

/-- Value stored at layer `layer` of the selected slot of a sequence. -/
def slotKV (s : Sequence) (src : SeqCache) (layer : Nat) : Tensor × Tensor :=
  lcKV (seqGet s src) layer

/-- Layer `layer` of the container is present (a `LayerKV` is stored). -/
def slotPresentAt (lc : LayerCaches) (layer : Nat) : Bool :=
  match lc[layer]? with
  | some (some _) => true
  | _ => false

/-- Layer `layer` of the container is present with both tensors of axis-0
extent one residing on device `d` — the data-model shape of a
per-sequence slot stored in isolation. -/
def slotOkAt (d : Device) (lc : LayerCaches) (layer : Nat) : Bool :=
  match lc[layer]? with
  | some (some kv) =>
    kv.1.rows.length == 1 && kv.2.rows.length == 1 && kv.1.dev == d && kv.2.dev == d
  | _ => false

/-- The batched layer value gather is specified to produce: the axis-0
concatenation of the sequences' layer tensors in input order. -/
def gatheredKV (seqs : List Sequence) (src : SeqCache) (layer : Nat) :
    Option (Tensor × Tensor) :=
  some (Tensor.cat (seqs.map fun s => (slotKV s src layer).1),
        Tensor.cat (seqs.map fun s => (slotKV s src layer).2))

/-- The per-sequence slot selected by `modify_draft_cache` at the
`DefaultCacheManager` entry points. -/
def selOf (modify_draft_cache : Bool) : SeqCache :=
  if modify_draft_cache then SeqCache.Draft else SeqCache.Normal

namespace PrefixCacheManager

/-- Spec-side device-tier scan, written from the claimed search order: the
first entry in insertion order whose key is a leading slice of the query
yields `Subset` with the query remainder; one of which the query is a
leading slice yields `Verbatim`. -/
def deviceScanSpec (toks : List Nat) :
    List (List Nat × LayerCaches) → Option MatchingCache
  | [] => none
  | (k, c) :: rest =>
    if k.length ≤ toks.length ∧ toks.take k.length = k then
      some (MatchingCache.Subset c none (toks.drop k.length))
    else if toks.length ≤ k.length ∧ k.take toks.length = toks then
      some (MatchingCache.Verbatim c none)
    else deviceScanSpec toks rest

/-- Spec-side cpu-tier scan: the same two sub-conditions, promoting the
matched cache to the device. -/
def hostScanSpec (m : PrefixCacheManager) (toks : List Nat) :
    List (List Nat × LayerCaches) → PrefixCacheManager × Option MatchingCache
  | [] => (m, none)
  | (k, c) :: rest =>
    if k.length ≤ toks.length ∧ toks.take k.length = k then
      let p := m.promote_into_device_cache toks c
      (p.1, some (MatchingCache.Subset p.2 none (toks.drop k.length)))
    else if toks.length ≤ k.length ∧ k.take toks.length = toks then
      let p := m.promote_into_device_cache toks c
      (p.1, some (MatchingCache.Verbatim p.2 none))
    else hostScanSpec m toks rest

/-- The claimed lookup search order, written from the specification's
words (non-xlora form): exact device hit, exact cpu hit with promotion,
device-tier scan in insertion order, cpu-tier scan with promotion, else
no match. -/
def lookupSpec (m : PrefixCacheManager) (toks : List Nat) :
    PrefixCacheManager × Option MatchingCache :=
  match m.caches.get toks with
  | some c => (m, some (MatchingCache.Verbatim c none))
  | none =>
    match m.cpu_caches.get toks with
    | some c =>
      let p := m.promote_into_device_cache toks c
      (p.1, some (MatchingCache.Verbatim p.2 none))
    | none =>
      match deviceScanSpec toks m.caches with
      | some r => (m, some r)
      | none => hostScanSpec m toks m.cpu_caches

end PrefixCacheManager

/-! ## Concrete fixtures for witnesses and counterexamples -/

/-- A one-row tensor on the accelerator. -/
def tA : Tensor := { rows := [10], dev := Device.gpu 0 }

/-- A second one-row tensor on the accelerator. -/
def tB : Tensor := { rows := [20], dev := Device.gpu 0 }

/-- A one-layer cache holding `tA`. -/
def lcA : LayerCaches := [some (tA, tA)]

/-- A one-layer cache holding `tB`. -/
def lcB : LayerCaches := [some (tB, tB)]

/-- A plain (non-xlora) sequence with tokens `[1]` and cache `lcA`. -/
def seqA : Sequence :=
  { toks := [1]
    cache := lcA
    xlora_cache := []
    draft_cache := lcA
    scaling_cache := none
    is_xlora := false }

/-- A second plain sequence, cache `lcB`. -/
def seqB : Sequence :=
  { toks := [2]
    cache := lcB
    xlora_cache := []
    draft_cache := lcB
    scaling_cache := none
    is_xlora := false }

/-- An xlora sequence whose normal cache is `lcA` and xlora cache `lcB`. -/
def seqXl : Sequence :=
  { toks := [1]
    cache := lcA
    xlora_cache := lcB
    draft_cache := []
    scaling_cache := none
    is_xlora := true }

/-- An empty batch cache without xlora state. -/
def cache0 : Cache :=
  { cache := []
    xlora_cache := none
    draft_cache := []
    scalings_cache := none }

/-- One-layer, non-xlora pipeline metadata. -/
def md1 : GeneralMetadata :=
  { num_hidden_layers := 1, is_xlora := false, has_no_kv_cache := false }

/-- A non-xlora prefix cache holding one device entry under key `[1]`. -/
def pcOne : PrefixCacheManager :=
  { caches := [([1], lcA)]
    cpu_caches := []
    xlora_caches := none
    xlora_cpu_caches := none
    device := Device.gpu 0
    n_on_device := 1 }

/-- A non-xlora prefix cache with two device entries and capacity one. -/
def pcTwo : PrefixCacheManager :=
  { caches := [([1], lcA), ([1, 2], lcB)]
    cpu_caches := []
    xlora_caches := none
    xlora_cpu_caches := none
    device := Device.gpu 0
    n_on_device := 1 }

/-- An empty non-xlora prefix cache with capacity five. -/
def pcEmptyFive : PrefixCacheManager :=
  PrefixCacheManager.new (Device.gpu 0) 5 false

/-- An empty xlora prefix cache. -/
def pcXl : PrefixCacheManager :=
  PrefixCacheManager.new (Device.gpu 0) 10 true

/-- The state reached by admitting `seqA` into a capacity-zero cache and
evicting: the entry for `[1]` now lives on the cpu tier. -/
def pcEvicted : PrefixCacheManager :=
  ((PrefixCacheManager.new (Device.gpu 0) 0 false).add_sequence seqA).evict_to_cpu.1

/-! ## Helper lemmas -/

theorem list_set_getElem?_self {α : Type} :
    ∀ (l : List α) (i : Nat) (a : α), l[i]? = some a → l.set i a = l
  | [], i, a, h => by simp at h
  | x :: t, 0, a, h => by
    simp only [List.getElem?_cons_zero, Option.some.injEq] at h
    simp [h]
  | x :: t, i + 1, a, h => by
    simp only [List.getElem?_cons_succ] at h
    simp only [List.set]
    rw [list_set_getElem?_self t i a h]

namespace IndexMap

theorem get_insert_self {α β : Type} [DecidableEq α] :
    ∀ (m : IndexMap α β) (k : α) (v : β), (m.insert k v).get k = some v
  | [], k, v => by simp [IndexMap.insert, IndexMap.get]
  | (k', v') :: rest, k, v => by
    by_cases h : k' = k
    · simp [IndexMap.insert, IndexMap.get, h]
    · simp only [IndexMap.insert, IndexMap.get, h, if_false, if_neg h]
      exact get_insert_self rest k v

theorem get_insert_ne {α β : Type} [DecidableEq α] :
    ∀ (m : IndexMap α β) (k' k : α) (v : β), k' ≠ k →
      (m.insert k' v).get k = m.get k
  | [], k', k, v, h => by simp [IndexMap.insert, IndexMap.get, h]
  | (k0, v0) :: rest, k', k, v, h => by
    by_cases h0 : k0 = k'
    · subst h0
      simp [IndexMap.insert, IndexMap.get, h]
    · simp only [IndexMap.insert, if_neg h0, IndexMap.get]
      by_cases h1 : k0 = k
      · simp [h1]
      · simp only [if_neg h1]
        exact get_insert_ne rest k' k v h

theorem get_none_of_forall_ne {α β : Type} [DecidableEq α] :
    ∀ (m : IndexMap α β) (k : α), m.get k = none → ∀ e ∈ m, e.1 ≠ k
  | [], _, _ => by simp
  | (k0, v0) :: rest, k, h => by
    simp only [IndexMap.get] at h
    by_cases h0 : k0 = k
    · simp [h0] at h
    · intro e he
      rcases List.mem_cons.mp he with rfl | he'
      · exact h0
      · simp only [if_neg h0] at h
        exact get_none_of_forall_ne rest k h e he'

/-- Folding cpu-tier inserts over entries whose keys avoid `k` leaves the
lookup of `k` unchanged. -/
theorem get_foldl_insert_of_not_mem {α β : Type} [DecidableEq α] (f : β → β) :
    ∀ (l : List (α × β)) (m : IndexMap α β) (k : α), k ∉ l.map Prod.fst →
      (l.foldl (fun acc e => IndexMap.insert acc e.1 (f e.2)) m).get k = m.get k
  | [], m, k, _ => rfl
  | e :: rest, m, k, h => by
    simp only [List.map_cons, List.mem_cons, not_or] at h
    simp only [List.foldl_cons]
    rw [get_foldl_insert_of_not_mem f rest _ k h.2,
      get_insert_ne _ _ _ _ (fun he => h.1 he.symm)]

/-- Folding cpu-tier inserts over entries with pairwise distinct keys makes
every folded entry retrievable. -/
theorem get_foldl_insert_of_mem {α β : Type} [DecidableEq α] (f : β → β) :
    ∀ (l : List (α × β)) (m : IndexMap α β) (e : α × β), e ∈ l →
      (l.map Prod.fst).Nodup →
      (l.foldl (fun acc e => IndexMap.insert acc e.1 (f e.2)) m).get e.1 = some (f e.2)
  | [], _, _, he, _ => by simp at he
  | x :: rest, m, e, he, hnd => by
    simp only [List.map_cons, List.nodup_cons] at hnd
    simp only [List.foldl_cons]
    rcases List.mem_cons.mp he with rfl | he'
    · rw [get_foldl_insert_of_not_mem f rest _ e.1 hnd.1, get_insert_self]
    · exact get_foldl_insert_of_mem f rest _ e he' hnd.2

end IndexMap

/-! ## Claim C8: `set_none_cache` resets normal, draft iff requested, xlora
iff present, and leaves scalings untouched -/

/-- C8: `set_none_cache` replaces the normal container with a fresh
length-`L` all-absent vector, resets the draft container exactly when
`modify_draft_cache` is set (otherwise it is unchanged), resets the xlora
container exactly when it is present, and never touches the scalings. -/
theorem c8_set_none_cache_frame (md : GeneralMetadata) (c : Cache)
    (modify_draft_cache : Bool) :
    DefaultCacheManager.set_none_cache md c modify_draft_cache =
      { cache := List.replicate md.num_hidden_layers none
        xlora_cache := c.xlora_cache.map fun _ =>
          List.replicate md.num_hidden_layers none
        draft_cache :=
          if modify_draft_cache then List.replicate md.num_hidden_layers none
          else c.draft_cache
        scalings_cache := c.scalings_cache } := by
  unfold DefaultCacheManager.set_none_cache
  cases hx : c.xlora_cache with
  | none => cases modify_draft_cache <;> simp [hx]
  | some xc => cases modify_draft_cache <;> simp [hx]

/-! ## Claim C3: `add_sequence` on an xlora sequence misroutes the xlora
cache into the normal device map -/

/-- C3 (failing input): admitting the xlora sequence `seqXl` into the
fresh xlora manager `pcXl` leaves the *normal* device map holding the
sequence's **xlora** cache `lcB` under key `[1]` — not the normal cache
`lcA`, which is distinct — and the parallel `xlora_caches` map stays
empty.  The specified behavior (normal cache under `device_entries`,
xlora cache under `device_xl_entries`) does not hold. -/
theorem c3_add_sequence_xlora_misroute :
    (pcXl.add_sequence seqXl).caches.get [1] = some lcB ∧
    lcB ≠ lcA ∧
    (pcXl.add_sequence seqXl).xlora_caches = some [] := by
  refine ⟨by decide, by decide, by decide⟩

/-! ## Claim C4: `evict_to_cpu`'s return value -/

/-- C4 (failing input): with two device entries and capacity one,
`evict_to_cpu` moves exactly one entry to the cpu tier, yet returns `0`
(the formula `caches.len() - n_on_device` is evaluated after the drain);
and on an empty cache with capacity five the same formula underflows,
wrapping to `2^64 - 5` instead of the specified `max(0, S - capacity) = 0`. -/
theorem c4_evict_return_count :
    pcTwo.evict_to_cpu.2 = 0 ∧
    pcTwo.evict_to_cpu.1.cpu_caches.length = 1 ∧
    pcTwo.caches.length - pcTwo.n_on_device = 1 ∧
    pcEmptyFive.evict_to_cpu.2 = 18446744073709551611 := by
  refine ⟨by decide, by decide, by decide, by decide⟩

/-! ## Claim C5: device / host key sets are not disjoint -/

/-- C5 (counterexample): a concrete reachable state — start from the
empty non-xlora manager with capacity zero, admit `seqA` (tokens `[1]`),
call `evict_to_cpu`, then `search_for_matching_cache [1]` — ends with the
key `[1]` present in **both** `caches` and `cpu_caches`: the exact-hit
promotion inserts into the device map without removing the host entry. -/
theorem c5_tiers_not_disjoint_cex :
    (pcEvicted.search_for_matching_cache [1]).map
        (fun r => ((r.1.caches.get [1]).isSome, (r.1.cpu_caches.get [1]).isSome)) =
      some (true, true) := by
  decide

/-! ## Claim C6: `evict_to_cpu` leaves at most the capacity on device and
moves exactly the oldest excess entries -/

/-- C6: after `evict_to_cpu`, the device tier holds exactly the entries
past the first `len - capacity` (so at most `n_on_device` remain), every
one of the oldest `len - capacity` entries is retrievable from the cpu
tier with all present layers transferred to the cpu, and no other cpu
lookup changes. -/
theorem c6_evict_state (m : PrefixCacheManager) (hnd : m.caches.keys.Nodup) :
    m.evict_to_cpu.1.caches =
      m.caches.drop (m.caches.length - m.n_on_device) ∧
    m.evict_to_cpu.1.caches.length ≤ m.n_on_device ∧
    (∀ e ∈ m.caches.take (m.caches.length - m.n_on_device),
      m.evict_to_cpu.1.cpu_caches.get e.1 = some (cacheTo Device.cpu e.2)) ∧
    (∀ k, k ∉ (m.caches.take (m.caches.length - m.n_on_device)).map Prod.fst →
      m.evict_to_cpu.1.cpu_caches.get k = m.cpu_caches.get k) := by
  refine ⟨rfl, ?_, ?_, ?_⟩
  · simp only [PrefixCacheManager.evict_to_cpu, List.length_drop]
    omega
  · intro e he
    exact IndexMap.get_foldl_insert_of_mem (cacheTo Device.cpu) _ _ e he
      (by
        rw [List.map_take]
        exact (List.take_sublist _ _).nodup hnd)
  · intro k hk
    exact IndexMap.get_foldl_insert_of_not_mem (cacheTo Device.cpu) _ _ k hk

/-- C6 witness at `pcTwo` (two device entries, capacity one). -/
theorem c6_evict_state_witness :
    pcTwo.caches.keys.Nodup ∧
    (pcTwo.evict_to_cpu.1.caches =
        pcTwo.caches.drop (pcTwo.caches.length - pcTwo.n_on_device) ∧
      pcTwo.evict_to_cpu.1.caches.length ≤ pcTwo.n_on_device ∧
      (∀ e ∈ pcTwo.caches.take (pcTwo.caches.length - pcTwo.n_on_device),
        pcTwo.evict_to_cpu.1.cpu_caches.get e.1 = some (cacheTo Device.cpu e.2)) ∧
      (∀ k, k ∉ (pcTwo.caches.take (pcTwo.caches.length - pcTwo.n_on_device)).map Prod.fst →
        pcTwo.evict_to_cpu.1.cpu_caches.get k = pcTwo.cpu_caches.get k)) :=
  ⟨by decide, c6_evict_state pcTwo (by decide)⟩

/-! ## The lookup search order (C2, C9, C5 amended) -/

theorem searchDeviceLoop_eq_spec (m : PrefixCacheManager) (toks : List Nat)
    (hx : m.xlora_caches = none) (l : List (List Nat × LayerCaches)) :
    m.searchDeviceLoop toks l = some (PrefixCacheManager.deviceScanSpec toks l) := by
  induction l with
  | nil => rfl
  | cons e rest ih =>
    obtain ⟨ids, cache⟩ := e
    simp only [PrefixCacheManager.searchDeviceLoop,
      PrefixCacheManager.deviceScanSpec, hx]
    split_ifs <;> simp [ih]

theorem searchCpuLoop_eq_spec (m : PrefixCacheManager) (toks : List Nat)
    (hx : m.xlora_cpu_caches = none) (l : List (List Nat × LayerCaches)) :
    m.searchCpuLoop toks l = some (PrefixCacheManager.hostScanSpec m toks l) := by
  induction l with
  | nil => rfl
  | cons e rest ih =>
    obtain ⟨ids, cache⟩ := e
    simp only [PrefixCacheManager.searchCpuLoop, PrefixCacheManager.hostScanSpec,
      PrefixCacheManager.promote_into_device_cache, hx]
    split_ifs <;> simp_all [PrefixCacheManager.promote_into_device_cache]

/-- C2: on any non-xlora manager, `search_for_matching_cache` never
panics and returns exactly the claimed search order `lookupSpec`: exact
device hit, exact cpu hit with promotion, device-tier scan in insertion
order (leading-slice key gives `Subset` with the query remainder, query
being a leading slice of the key gives `Verbatim`), the same scan over
the cpu tier with promotion, else no match. -/
theorem c2_lookup_search_order (m : PrefixCacheManager) (toks : List Nat)
    (h1 : m.xlora_caches = none) (h2 : m.xlora_cpu_caches = none) :
    m.search_for_matching_cache toks = some (m.lookupSpec toks) := by
  unfold PrefixCacheManager.search_for_matching_cache PrefixCacheManager.lookupSpec
  cases hd : m.caches.get toks with
  | some cache => simp [h1]
  | none =>
    cases hc : m.cpu_caches.get toks with
    | some cache =>
      simp [PrefixCacheManager.promote_into_device_cache, h1]
    | none =>
      rw [searchDeviceLoop_eq_spec m toks h1 m.caches]
      cases ds : PrefixCacheManager.deviceScanSpec toks m.caches with
      | some r => simp
      | none =>
        simp only []
        rw [searchCpuLoop_eq_spec m toks h2 m.cpu_caches]

/-- C2 witness: the search order theorem applied to the concrete manager
`pcTwo` and query `[1, 2, 3]`. -/
theorem c2_lookup_search_order_witness :
    pcTwo.search_for_matching_cache [1, 2, 3] = some (pcTwo.lookupSpec [1, 2, 3]) :=
  c2_lookup_search_order pcTwo [1, 2, 3] rfl rfl

/-- C5 (amended): an exact cpu-tier hit promotes the entry into the
device map but leaves the cpu entry in place, so after the lookup the key
is present in both tiers. -/
theorem c5_promotion_keeps_host_entry (m : PrefixCacheManager)
    (toks : List Nat) (cache : LayerCaches)
    (h1 : m.xlora_caches = none)
    (hd : m.caches.get toks = none)
    (hc : m.cpu_caches.get toks = some cache) :
    ∃ m', m.search_for_matching_cache toks =
        some (m', some (MatchingCache.Verbatim (cacheTo m.device cache) none)) ∧
      m'.caches.get toks = some (cacheTo m.device cache) ∧
      m'.cpu_caches.get toks = some cache := by
  refine ⟨{ m with caches := m.caches.insert toks (cacheTo m.device cache) },
    ?_, ?_, hc⟩
  · unfold PrefixCacheManager.search_for_matching_cache
    rw [hd, hc]
    simp [PrefixCacheManager.promote_into_device_cache, h1]
  · exact IndexMap.get_insert_self _ _ _

/-- C5 amended-claim witness: the promotion lemma applied to the concrete
reachable state `pcEvicted` (host entry under `[1]`, device tier empty). -/
theorem c5_promotion_keeps_host_entry_witness :
    ∃ m', pcEvicted.search_for_matching_cache [1] =
        some (m', some (MatchingCache.Verbatim
          (cacheTo pcEvicted.device (cacheTo Device.cpu lcA)) none)) ∧
      m'.caches.get [1] = some (cacheTo pcEvicted.device (cacheTo Device.cpu lcA)) ∧
      m'.cpu_caches.get [1] = some (cacheTo Device.cpu lcA) :=
  c5_promotion_keeps_host_entry pcEvicted [1] (cacheTo Device.cpu lcA)
    (by decide) (by decide) (by decide)

/-! ## Claim C9: lookup with an empty query -/

/-- C9 (counterexample): on `pcOne` — a single device entry under key
`[1]`, no entry with the empty key in either tier — a lookup with the
empty query returns a `Verbatim` match of that entry instead of the
claimed `None`: every stored key trivially has the empty query as a
leading slice, so the device scan's second condition fires on the first
entry. -/
theorem c9_empty_query_cex :
    pcOne.caches.get [] = none ∧
    pcOne.cpu_caches.get [] = none ∧
    pcOne.search_for_matching_cache [] =
      some (pcOne, some (MatchingCache.Verbatim lcA none)) := by
  refine ⟨by decide, by decide, by decide⟩

/-- C9 (amended): on a non-xlora manager, an empty-query lookup returns
the empty-key device entry if present, else the empty-key cpu entry
promoted, else `Verbatim` of the *first* device entry in insertion order,
else `Verbatim` of the first cpu entry promoted, and `None` exactly when
both tiers are empty. -/
theorem c9_empty_query_behavior (m : PrefixCacheManager)
    (h1 : m.xlora_caches = none) (h2 : m.xlora_cpu_caches = none) :
    m.search_for_matching_cache [] = some (
      match m.caches.get [] with
      | some c => (m, some (MatchingCache.Verbatim c none))
      | none =>
        match m.cpu_caches.get [] with
        | some c => ((m.promote_into_device_cache [] c).1,
            some (MatchingCache.Verbatim (cacheTo m.device c) none))
        | none =>
          match m.caches with
          | e :: _ => (m, some (MatchingCache.Verbatim e.2 none))
          | [] =>
            match m.cpu_caches with
            | e :: _ => ((m.promote_into_device_cache [] e.2).1,
                some (MatchingCache.Verbatim (cacheTo m.device e.2) none))
            | [] => (m, none)) := by
  unfold PrefixCacheManager.search_for_matching_cache
  cases hd : m.caches.get [] with
  | some cache => simp [h1]
  | none =>
    cases hc : m.cpu_caches.get [] with
    | some cache =>
      simp [PrefixCacheManager.promote_into_device_cache, h1]
    | none =>
      cases hcl : m.caches with
      | cons e rest =>
        obtain ⟨ids, cache⟩ := e
        have hne : ids ≠ [] := by
          have := IndexMap.get_none_of_forall_ne m.caches [] hd (ids, cache)
            (by rw [hcl]; exact List.mem_cons_self _ _)
          simpa using this
        have hcond1 : ¬(ids.length ≤ ([] : List Nat).length ∧
            ([] : List Nat).take ids.length = ids) := by
          rintro ⟨hlen, -⟩
          exact hne (List.eq_nil_of_length_eq_zero (Nat.le_zero.mp hlen))
        simp only [PrefixCacheManager.searchDeviceLoop, hcond1, if_false, h1]
        simp
      | nil =>
        simp only [PrefixCacheManager.searchDeviceLoop]
        cases hpl : m.cpu_caches with
        | cons e rest =>
          obtain ⟨ids, cache⟩ := e
          have hne : ids ≠ [] := by
            have := IndexMap.get_none_of_forall_ne m.cpu_caches [] hc (ids, cache)
              (by rw [hpl]; exact List.mem_cons_self _ _)
            simpa using this
          have hcond1 : ¬(ids.length ≤ ([] : List Nat).length ∧
              ([] : List Nat).take ids.length = ids) := by
            rintro ⟨hlen, -⟩
            exact hne (List.eq_nil_of_length_eq_zero (Nat.le_zero.mp hlen))
          simp only [PrefixCacheManager.searchCpuLoop, hcond1, if_false, h2,
            PrefixCacheManager.promote_into_device_cache]
          simp
        | nil => rfl

/-- C9 amended-claim witness: the empty-query characterization applied to
the concrete manager `pcOne`. -/
theorem c9_empty_query_behavior_witness :
    pcOne.search_for_matching_cache [] =
      some (pcOne, some (MatchingCache.Verbatim lcA none)) := by
  have h := c9_empty_query_behavior pcOne rfl rfl
  simpa using h

/-! ## Gather / scatter helper lemmas -/

theorem tensor_cat_singleton (t : Tensor) : Tensor.cat [t] = t := by
  cases t with
  | mk rows dev => simp [Tensor.cat]

theorem flatten_length_of_extent_one :
    ∀ ts : List Tensor, (∀ t ∈ ts, t.rows.length = 1) →
      ((ts.map Tensor.rows).flatten).length = ts.length
  | [], _ => rfl
  | t :: rest, h => by
    simp only [List.map_cons, List.flatten_cons, List.length_append,
      h t (List.mem_cons_self _ _),
      flatten_length_of_extent_one rest fun u hu => h u (List.mem_cons_of_mem _ hu),
      List.length_cons]
    omega

theorem range_map_piece_eq :
    ∀ (ts : List Tensor) (d : Device),
      (∀ t ∈ ts, t.rows.length = 1 ∧ t.dev = d) →
      (List.range ts.length).map (fun i =>
        ({ rows := ((ts.map Tensor.rows).flatten.drop i).take 1, dev := d } : Tensor))
        = ts
  | [], _, _ => rfl
  | t :: rest, d, h => by
    obtain ⟨h1, h2⟩ := h t (List.mem_cons_self _ _)
    obtain ⟨r, hr⟩ := List.length_eq_one.mp h1
    have hrest : ∀ u ∈ rest, u.rows.length = 1 ∧ u.dev = d :=
      fun u hu => h u (List.mem_cons_of_mem _ hu)
    simp only [List.length_cons, List.range_succ_eq_map, List.map_cons, List.map_map,
      List.flatten_cons, hr, List.cons_append, List.nil_append, List.cons.injEq]
    constructor
    · cases t with
      | mk trows tdev =>
        simp only at hr h2
        simp [hr, h2]
    · have hfun : ∀ i ∈ List.range rest.length,
          ((fun i =>
            ({ rows := ((r :: (rest.map Tensor.rows).flatten).drop i).take 1,
               dev := d } : Tensor)) ∘ Nat.succ) i =
          ({ rows := (((rest.map Tensor.rows).flatten).drop i).take 1,
             dev := d } : Tensor) := by
        intro i _
        simp [List.drop_succ_cons]
      rw [List.map_congr_left hfun]
      exact range_map_piece_eq rest d hrest

theorem chunk_cat_of_extent_one (ts : List Tensor) (d : Device) (hne : ts ≠ [])
    (h : ∀ t ∈ ts, t.rows.length = 1 ∧ t.dev = d) :
    (Tensor.cat ts).chunk ts.length = some ts := by
  have hlen : ((ts.map Tensor.rows).flatten).length = ts.length :=
    flatten_length_of_extent_one ts fun t ht => (h t ht).1
  have hn : ts.length ≠ 0 := by
    cases ts with
    | nil => exact absurd rfl hne
    | cons t rest => simp
  have hdev : (Tensor.cat ts).dev = d := by
    cases ts with
    | nil => exact absurd rfl hne
    | cons t rest => simp [Tensor.cat, (h t (List.mem_cons_self _ _)).2]
  have hrows : (Tensor.cat ts).rows = (ts.map Tensor.rows).flatten := rfl
  unfold Tensor.chunk
  rw [if_neg hn, hrows, hlen, if_pos (Nat.mod_self _),
    Nat.div_self (Nat.pos_of_ne_zero hn)]
  rw [hdev]
  simp only [Nat.mul_one, Option.some.injEq]
  exact range_map_piece_eq ts d h

theorem slotPresentAt_eq {lc : LayerCaches} {layer : Nat}
    (h : slotPresentAt lc layer = true) :
    lc[layer]? = some (some (lcKV lc layer)) := by
  unfold slotPresentAt at h
  unfold lcKV
  cases he : lc[layer]? with
  | none => rw [he] at h; exact absurd h (by simp)
  | some o =>
    cases o with
    | none => rw [he] at h; exact absurd h (by simp)
    | some kv => rfl

theorem slotOkAt_present {d : Device} {lc : LayerCaches} {layer : Nat}
    (h : slotOkAt d lc layer = true) : slotPresentAt lc layer = true := by
  unfold slotOkAt at h
  unfold slotPresentAt
  cases he : lc[layer]? with
  | none => rw [he] at h; exact absurd h (by simp)
  | some o =>
    cases o with
    | none => rw [he] at h; exact absurd h (by simp)
    | some kv => rfl

theorem slotOkAt_facts {d : Device} {lc : LayerCaches} {layer : Nat}
    (h : slotOkAt d lc layer = true) :
    (lcKV lc layer).1.rows.length = 1 ∧ (lcKV lc layer).2.rows.length = 1 ∧
    (lcKV lc layer).1.dev = d ∧ (lcKV lc layer).2.dev = d := by
  unfold slotOkAt at h
  unfold lcKV
  cases he : lc[layer]? with
  | none => rw [he] at h; exact absurd h (by simp)
  | some o =>
    cases o with
    | none => rw [he] at h; exact absurd h (by simp)
    | some kv =>
      rw [he] at h
      simp only [Bool.and_eq_true, beq_iff_eq] at h
      exact ⟨h.1.1.1, h.1.1.2, h.1.2, h.2⟩

theorem collectPairs_eq_map (src : SeqCache) (layer : Nat) :
    ∀ seqs : List Sequence,
      (∀ s ∈ seqs, slotPresentAt (seqGet s src) layer = true) →
      collectPairs src layer seqs = some (seqs.map fun s => slotKV s src layer)
  | [], _ => rfl
  | s :: rest, h => by
    have hs := slotPresentAt_eq (h s (List.mem_cons_self _ _))
    have ht := collectPairs_eq_map src layer rest
      fun u hu => h u (List.mem_cons_of_mem _ hu)
    simp only [collectPairs, hs, Option.bind_eq_bind, Option.some_bind, ht,
      List.map_cons]
    rfl

theorem catOrSingle_eq (ts : List Tensor) (hne : ts ≠ []) :
    ∃ cnt, catOrSingle ts = some (Tensor.cat ts, cnt) ∧
      (ts.length = 1 → cnt = 0) := by
  match ts, hne with
  | [t], _ =>
    refine ⟨0, ?_, fun _ => rfl⟩
    simp [catOrSingle, tensor_cat_singleton]
  | t1 :: t2 :: rest, _ =>
    refine ⟨1, ?_, ?_⟩
    · rw [catOrSingle, if_pos (by simp)]
    · intro h
      simp at h

theorem gatherLayers_eq (seqs : List Sequence) (src : SeqCache)
    (hne : seqs ≠ []) :
    ∀ layers : List Nat,
      (∀ layer ∈ layers, ∀ s ∈ seqs, slotPresentAt (seqGet s src) layer = true) →
      ∃ cnt, gatherLayers seqs src layers =
          some (layers.map fun layer => gatheredKV seqs src layer, cnt) ∧
        (seqs.length = 1 → cnt = 0)
  | [], _ => ⟨0, rfl, fun _ => rfl⟩
  | layer :: rest, h => by
    obtain ⟨cr, hrec, hrec1⟩ := gatherLayers_eq seqs src hne rest
      fun l hl => h l (List.mem_cons_of_mem _ hl)
    have hcp := collectPairs_eq_map src layer seqs (h layer (List.mem_cons_self _ _))
    have hksne : (seqs.map fun s => slotKV s src layer).map Prod.fst ≠ [] := by
      simp [hne]
    have hvsne : (seqs.map fun s => slotKV s src layer).map Prod.snd ≠ [] := by
      simp [hne]
    obtain ⟨ck, hck, hck1⟩ := catOrSingle_eq _ hksne
    obtain ⟨cv, hcv, hcv1⟩ := catOrSingle_eq _ hvsne
    refine ⟨ck + cv + cr, ?_, ?_⟩
    · simp only [gatherLayers, hcp, Option.bind_eq_bind, Option.some_bind, hck,
        hcv, hrec, List.map_cons]
      simp only [gatheredKV, List.map_map]
      rfl
    · intro h1
      have hk0 := hck1 (by simp [h1])
      have hv0 := hcv1 (by simp [h1])
      rw [hk0, hv0, hrec1 h1]

theorem seqSet_seqGet (s : Sequence) (sel : SeqCache) :
    seqSet s sel (seqGet s sel) = s := by
  cases sel <;> rfl

theorem getElem?_of_drop_cons {α : Type} {l : List α} {i : Nat} {a : α}
    {t : List α} (h : l.drop i = a :: t) : l[i]? = some a := by
  have h0 : (l.drop i)[0]? = some a := by rw [h]; simp
  rwa [List.getElem?_drop, Nat.add_zero] at h0

theorem drop_succ_of_drop_cons {α : Type} {l : List α} {i : Nat} {a : α}
    {t : List α} (h : l.drop i = a :: t) : l.drop (i + 1) = t := by
  have := List.drop_drop 1 i l
  rw [h] at this
  simpa using this.symm

theorem writeLayer_restore (tgt : SeqCache) (layer : Nat) (ks vs : List Tensor) :
    ∀ (seqs : List Sequence) (i : Nat),
      ks.drop i = seqs.map (fun s => (slotKV s tgt layer).1) →
      vs.drop i = seqs.map (fun s => (slotKV s tgt layer).2) →
      (∀ s ∈ seqs, slotPresentAt (seqGet s tgt) layer = true) →
      writeLayer tgt layer ks vs i seqs = some seqs
  | [], _, _, _, _ => rfl
  | s :: rest, i, hks, hvs, hp => by
    simp only [List.map_cons] at hks hvs
    have hki : ks[i]? = some ((slotKV s tgt layer).1) := getElem?_of_drop_cons hks
    have hvi : vs[i]? = some ((slotKV s tgt layer).2) := getElem?_of_drop_cons hvs
    have hks1 : ks.drop (i + 1) = rest.map (fun u => (slotKV u tgt layer).1) :=
      drop_succ_of_drop_cons hks
    have hvs1 : vs.drop (i + 1) = rest.map (fun u => (slotKV u tgt layer).2) :=
      drop_succ_of_drop_cons hvs
    have hrec := writeLayer_restore tgt layer ks vs rest (i + 1) hks1 hvs1
      fun u hu => hp u (List.mem_cons_of_mem _ hu)
    have hset : (seqGet s tgt).set layer (some (slotKV s tgt layer)) = seqGet s tgt :=
      list_set_getElem?_self _ _ _ (slotPresentAt_eq (hp s (List.mem_cons_self _ _)))
    simp only [writeLayer, hki, hvi, Option.bind_eq_bind, Option.some_bind, hrec]
    rw [show ((slotKV s tgt layer).1, (slotKV s tgt layer).2) = slotKV s tgt layer
      from rfl]
    rw [hset, seqSet_seqGet]
    rfl

theorem scatterLayers_restore (cache : LayerCaches) (tgt : SeqCache) (d : Device) :
    ∀ (layers : List Nat) (seqs : List Sequence), seqs ≠ [] →
      (∀ layer ∈ layers, cache[layer]? = some (gatheredKV seqs tgt layer)) →
      (∀ layer ∈ layers, ∀ s ∈ seqs, slotOkAt d (seqGet s tgt) layer = true) →
      scatterLayers cache tgt layers seqs = some seqs
  | [], _, _, _, _ => rfl
  | layer :: rest, seqs, hne, hc, hok => by
    have hcl := hc layer (List.mem_cons_self _ _)
    have hokl := hok layer (List.mem_cons_self _ _)
    have hktensors : ∀ t ∈ seqs.map (fun s => (slotKV s tgt layer).1),
        t.rows.length = 1 ∧ t.dev = d := by
      intro t ht
      obtain ⟨s, hs, rfl⟩ := List.mem_map.mp ht
      have := slotOkAt_facts (hokl s hs)
      exact ⟨this.1, this.2.2.1⟩
    have hvtensors : ∀ t ∈ seqs.map (fun s => (slotKV s tgt layer).2),
        t.rows.length = 1 ∧ t.dev = d := by
      intro t ht
      obtain ⟨s, hs, rfl⟩ := List.mem_map.mp ht
      have := slotOkAt_facts (hokl s hs)
      exact ⟨this.2.1, this.2.2.2⟩
    have hkchunk : (Tensor.cat (seqs.map fun s => (slotKV s tgt layer).1)).chunk
        seqs.length = some (seqs.map fun s => (slotKV s tgt layer).1) := by
      have := chunk_cat_of_extent_one (seqs.map fun s => (slotKV s tgt layer).1) d
        (by simp [hne]) hktensors
      rwa [List.length_map] at this
    have hvchunk : (Tensor.cat (seqs.map fun s => (slotKV s tgt layer).2)).chunk
        seqs.length = some (seqs.map fun s => (slotKV s tgt layer).2) := by
      have := chunk_cat_of_extent_one (seqs.map fun s => (slotKV s tgt layer).2) d
        (by simp [hne]) hvtensors
      rwa [List.length_map] at this
    have hwrite := writeLayer_restore tgt layer
      (seqs.map fun s => (slotKV s tgt layer).1)
      (seqs.map fun s => (slotKV s tgt layer).2) seqs 0 (by simp) (by simp)
      fun s hs => slotOkAt_present (hokl s hs)
    have hrec := scatterLayers_restore cache tgt d rest seqs hne
      (fun l hl => hc l (List.mem_cons_of_mem _ hl))
      (fun l hl => hok l (List.mem_cons_of_mem _ hl))
    simp only [scatterLayers, hcl, gatheredKV, Option.bind_eq_bind, Option.some_bind,
      hkchunk, hvchunk, hwrite, hrec]

/-! ## Claim C7: per-layer gather is axis-0 concatenation in input order,
with a no-concat single-sequence fast path -/

/-- C7: on a non-empty sequence list with all selected slots present,
gather succeeds and stores at every layer the pair of axis-0
concatenations of the sequences' `K` (resp. `V`) tensors in input order;
with exactly one sequence `Tensor::cat` is never invoked (the ghost
counter stays `0`) and the stored tensors are the sequence's own. -/
theorem c7_gather_concat (L : Nat) (seqs : List Sequence) (src : SeqCache)
    (hne : seqs ≠ [])
    (hp : ∀ s ∈ seqs, ∀ layer < L, slotPresentAt (seqGet s src) layer = true) :
    ∃ nc cnt, clone_in_cache L seqs src = some (nc, cnt) ∧
      (∀ layer < L, nc[layer]? = some (gatheredKV seqs src layer)) ∧
      (seqs.length = 1 → cnt = 0) ∧
      (∀ s0, seqs = [s0] → ∀ layer < L,
        nc[layer]? = some (some (slotKV s0 src layer))) := by
  obtain ⟨cnt, hg, h1⟩ := gatherLayers_eq seqs src hne (List.range L)
    fun layer hl s hs => hp s hs layer (List.mem_range.mp hl)
  refine ⟨_, cnt, hg, ?_, h1, ?_⟩
  · intro layer hl
    simp [List.getElem?_range hl]
  · rintro s0 rfl layer hl
    simp [List.getElem?_range hl, gatheredKV, tensor_cat_singleton]

/-- C7 witness: one layer, the single sequence `seqA`, normal slot. -/
theorem c7_gather_concat_witness :
    ∃ nc cnt, clone_in_cache 1 [seqA] SeqCache.Normal = some (nc, cnt) ∧
      (∀ layer < 1, nc[layer]? = some (gatheredKV [seqA] SeqCache.Normal layer)) ∧
      (([seqA] : List Sequence).length = 1 → cnt = 0) ∧
      (∀ s0, ([seqA] : List Sequence) = [s0] → ∀ layer < 1,
        nc[layer]? = some (some (slotKV s0 SeqCache.Normal layer))) :=
  c7_gather_concat 1 [seqA] SeqCache.Normal (by decide) (by decide)

/-! ## Claim C1: scatter after gather restores every sequence -/

/-- Free-function round trip: gathering well-formed (present, extent-one,
same-device) slots and scattering the result back restores the sequence
list exactly. -/
theorem clone_in_out_free (L : Nat) (seqs : List Sequence) (src : SeqCache)
    (d : Device) (hne : seqs ≠ [])
    (hwf : ∀ s ∈ seqs, ∀ layer < L, slotOkAt d (seqGet s src) layer = true) :
    ∃ cnt, clone_in_cache L seqs src =
        some ((List.range L).map fun layer => gatheredKV seqs src layer, cnt) ∧
      clone_out_cache L ((List.range L).map fun layer => gatheredKV seqs src layer)
        seqs src = some seqs := by
  obtain ⟨cnt, hg, -⟩ := gatherLayers_eq seqs src hne (List.range L)
    fun layer hl s hs => slotOkAt_present (hwf s hs layer (List.mem_range.mp hl))
  refine ⟨cnt, hg, ?_⟩
  exact scatterLayers_restore _ src d (List.range L) seqs hne
    (fun layer hl => by simp [List.getElem?_range (List.mem_range.mp hl)])
    (fun layer hl s hs => hwf s hs layer (List.mem_range.mp hl))

/-- C1: gather (`DefaultCacheManager::clone_in_cache`) followed by scatter
(`DefaultCacheManager::clone_out_cache`) on the same sequence list, same
order and same `modify_draft_cache` flag succeeds and returns the sequence
list unchanged — every sequence's selected slot (and, under xlora, its
xlora slot and scalings) holds its pre-gather value.  Hypotheses: the
sequence list is non-empty, the selected slots are present at every layer
with the per-sequence data-model shape (axis-0 extent one, one device),
and under xlora the xlora container, scalings slot, and xlora sequence
slots are likewise available. -/
theorem c1_gather_scatter_round_trip (md : GeneralMetadata) (c : Cache)
    (seqs : List Sequence) (modify_draft_cache : Bool) (d : Device)
    (hne : seqs ≠ [])
    (hwf : ∀ s ∈ seqs, ∀ layer < md.num_hidden_layers,
      slotOkAt d (seqGet s (selOf modify_draft_cache)) layer = true)
    (hxl : md.is_xlora = true → modify_draft_cache = false →
      c.xlora_cache.isSome = true ∧ c.scalings_cache.isSome = true)
    (hxlwf : md.is_xlora = true → modify_draft_cache = false →
      md.has_no_kv_cache = false →
      ∀ s ∈ seqs, ∀ layer < md.num_hidden_layers,
        slotOkAt d (seqGet s SeqCache.XLora) layer = true) :
    ∃ c1, DefaultCacheManager.clone_in_cache md c seqs modify_draft_cache =
        some (c1, seqs) ∧
      DefaultCacheManager.clone_out_cache md c1 seqs modify_draft_cache =
        some seqs := by
  cases modify_draft_cache with
  | true =>
    have hwfD : ∀ s ∈ seqs, ∀ layer < md.num_hidden_layers,
        slotOkAt d (seqGet s SeqCache.Draft) layer = true := hwf
    obtain ⟨cnt, hin, hout⟩ :=
      clone_in_out_free md.num_hidden_layers seqs SeqCache.Draft d hne hwfD
    refine ⟨{ c with cache := (List.range md.num_hidden_layers).map
                                fun layer => gatheredKV seqs SeqCache.Draft layer },
      ?_, ?_⟩
    · simp [DefaultCacheManager.clone_in_cache, hin]
    · simpa [DefaultCacheManager.clone_out_cache] using hout
  | false =>
    have hwfN : ∀ s ∈ seqs, ∀ layer < md.num_hidden_layers,
        slotOkAt d (seqGet s SeqCache.Normal) layer = true := hwf
    obtain ⟨cntN, hinN, houtN⟩ :=
      clone_in_out_free md.num_hidden_layers seqs SeqCache.Normal d hne hwfN
    cases hxb : md.is_xlora with
    | false =>
      refine ⟨{ c with cache := (List.range md.num_hidden_layers).map
                                  fun layer => gatheredKV seqs SeqCache.Normal layer },
        ?_, ?_⟩
      · simp [DefaultCacheManager.clone_in_cache, hinN, hxb]
      · simp only [DefaultCacheManager.clone_out_cache, Bool.false_eq_true,
          if_false, hxb, Bool.false_and]
        simp [houtN]
    | true =>
      obtain ⟨hxsome, hssome⟩ := hxl hxb rfl
      obtain ⟨xc0, hxc0⟩ := Option.isSome_iff_exists.mp hxsome
      obtain ⟨sc0, hsc0⟩ := Option.isSome_iff_exists.mp hssome
      obtain ⟨s0, srest, rfl⟩ : ∃ s0 srest, seqs = s0 :: srest := by
        cases seqs with
        | nil => exact absurd rfl hne
        | cons a b => exact ⟨a, b, rfl⟩
      cases hkb : md.has_no_kv_cache with
      | false =>
        have hxwf := hxlwf hxb rfl hkb
        obtain ⟨cntX, hinX, houtX⟩ :=
          clone_in_out_free md.num_hidden_layers (s0 :: srest) SeqCache.XLora d
            hne hxwf
        refine ⟨{ c with
                  cache := (List.range md.num_hidden_layers).map
                             fun layer => gatheredKV (s0 :: srest) SeqCache.Normal layer,
                  xlora_cache := some ((List.range md.num_hidden_layers).map
                                   fun layer => gatheredKV (s0 :: srest) SeqCache.XLora layer),
                  scalings_cache := some s0.scaling_cache },
          ?_, ?_⟩
        · simp [DefaultCacheManager.clone_in_cache, hinN, hinX, hxb, hkb, hxc0, hsc0]
        · simp [DefaultCacheManager.clone_out_cache, houtN, houtX, hxb, hkb]
      | true =>
        refine ⟨{ c with
                  cache := (List.range md.num_hidden_layers).map
                             fun layer => gatheredKV (s0 :: srest) SeqCache.Normal layer,
                  scalings_cache := some s0.scaling_cache },
          ?_, ?_⟩
        · simp [DefaultCacheManager.clone_in_cache, hinN, hxb, hkb, hsc0]
        · simp [DefaultCacheManager.clone_out_cache, houtN, hxb, hkb]

/-- C1 witness: metadata `md1`, batch cache `cache0`, the two-sequence
list `[seqA, seqB]`, normal slots. -/
theorem c1_gather_scatter_round_trip_witness :
    ∃ c1, DefaultCacheManager.clone_in_cache md1 cache0 [seqA, seqB] false =
        some (c1, [seqA, seqB]) ∧
      DefaultCacheManager.clone_out_cache md1 c1 [seqA, seqB] false =
        some [seqA, seqB] :=
  c1_gather_scatter_round_trip md1 cache0 [seqA, seqB] false (Device.gpu 0)
    (by decide) (by decide) (by decide) (by decide)

/-! ## Claim C10: gather does not mutate the sequences -/

/-- C10: whenever `DefaultCacheManager::clone_in_cache` succeeds it
returns the sequence list unchanged — no sequence's normal, draft, or
xlora slot nor its scalings is written — and of the batch cache only the
gathered containers change: the draft container is never written, and on
a non-xlora pipeline the xlora container and the scalings are untouched
as well. -/
theorem c10_gather_frame (md : GeneralMetadata) (c : Cache)
    (seqs : List Sequence) (modify_draft_cache : Bool) (c' : Cache)
    (seqs' : List Sequence)
    (h : DefaultCacheManager.clone_in_cache md c seqs modify_draft_cache =
      some (c', seqs')) :
    seqs' = seqs ∧ c'.draft_cache = c.draft_cache ∧
    (md.is_xlora = false →
      c'.xlora_cache = c.xlora_cache ∧ c'.scalings_cache = c.scalings_cache) := by
  unfold DefaultCacheManager.clone_in_cache at h
  cases modify_draft_cache with
  | true =>
    simp only [if_true] at h
    cases hg : Mistral.clone_in_cache md.num_hidden_layers seqs SeqCache.Draft with
    | none => rw [hg] at h; exact absurd h (by simp)
    | some p =>
      rw [hg] at h
      obtain ⟨nc, cnt⟩ := p
      simp only [Option.some.injEq, Prod.mk.injEq] at h
      obtain ⟨hc, hs⟩ := h
      subst hc hs
      exact ⟨rfl, rfl, fun _ => ⟨rfl, rfl⟩⟩
  | false =>
    simp only [Bool.false_eq_true, if_false] at h
    cases hg : Mistral.clone_in_cache md.num_hidden_layers seqs SeqCache.Normal with
    | none => rw [hg] at h; exact absurd h (by simp)
    | some p =>
      rw [hg] at h
      obtain ⟨nc, cnt⟩ := p
      simp only at h
      cases hxb : md.is_xlora with
      | false =>
        rw [hxb] at h
        simp only [Bool.false_and, if_false, Bool.false_eq_true] at h
        simp only [Option.some.injEq, Prod.mk.injEq] at h
        obtain ⟨hc, hs⟩ := h
        subst hc hs
        exact ⟨rfl, rfl, fun _ => ⟨rfl, rfl⟩⟩
      | true =>
        rw [hxb] at h
        simp only [Bool.true_and, if_true] at h
        cases hkb : md.has_no_kv_cache with
        | true =>
          rw [hkb] at h
          simp only [Bool.not_true, if_false, Bool.false_eq_true] at h
          cases hsc : c.scalings_cache with
          | none =>
            rw [hsc] at h
            cases seqs with
            | nil => exact absurd h (by simp)
            | cons s0 rest => exact absurd h (by simp)
          | some sc =>
            rw [hsc] at h
            cases seqs with
            | nil => exact absurd h (by simp)
            | cons s0 rest =>
              simp only [Option.some.injEq, Prod.mk.injEq] at h
              obtain ⟨hc, hs⟩ := h
              subst hc hs
              exact ⟨rfl, rfl, fun hfalse => absurd hfalse (by simp)⟩
        | false =>
          rw [hkb] at h
          simp only [Bool.not_false, if_true] at h
          cases hxc : c.xlora_cache with
          | none => rw [hxc] at h; exact absurd h (by simp)
          | some xc =>
            rw [hxc] at h
            cases hgx : Mistral.clone_in_cache md.num_hidden_layers seqs
                SeqCache.XLora with
            | none => rw [hgx] at h; exact absurd h (by simp)
            | some px =>
              rw [hgx] at h
              obtain ⟨ncx, cntx⟩ := px
              simp only at h
              cases hsc : c.scalings_cache with
              | none =>
                rw [hsc] at h
                cases seqs with
                | nil => exact absurd h (by simp)
                | cons s0 rest => exact absurd h (by simp)
              | some sc =>
                rw [hsc] at h
                cases seqs with
                | nil => exact absurd h (by simp)
                | cons s0 rest =>
                  simp only [Option.some.injEq, Prod.mk.injEq] at h
                  obtain ⟨hc, hs⟩ := h
                  subst hc hs
                  exact ⟨rfl, rfl, fun hfalse => absurd hfalse (by simp)⟩

/-- C10 witness: the frame theorem applied to the single-sequence gather
on `md1` / `cache0`. -/
theorem c10_gather_frame_witness :
    ([seqA] : List Sequence) = [seqA] ∧
    ({ cache := [some (tA, tA)], xlora_cache := none, draft_cache := [],
       scalings_cache := none } : Cache).draft_cache = cache0.draft_cache ∧
    (md1.is_xlora = false →
      ({ cache := [some (tA, tA)], xlora_cache := none, draft_cache := [],
         scalings_cache := none } : Cache).xlora_cache = cache0.xlora_cache ∧
      ({ cache := [some (tA, tA)], xlora_cache := none, draft_cache := [],
         scalings_cache := none } : Cache).scalings_cache = cache0.scalings_cache) :=
  c10_gather_frame md1 cache0 [seqA] false
    { cache := [some (tA, tA)], xlora_cache := none, draft_cache := [],
      scalings_cache := none } [seqA] (by decide)

end Mistral
